import Mathlib

/-!
Verification of the money-movement core of `cashflow-hono-sb`.

Shallow embedding of:
- the bet-execution balance arithmetic of
  `src/backend/src/modules/gameplay/core/core-bet.service.ts`
  (`addWinningsWithinTransaction`, `executeCoreBet`);
- the jackpot pool manager of the jackpot service
  (`JackpotManager.contribute`, `JackpotManager.processWin`,
  `JackpotManager.updateConfig`, `ConcurrencySafeDB.optimisticUpdate`,
  `isConcurrencyError`, `processJackpotContribution`) and the bet-completion
  jackpot listener `onBetCompleted`;
- the transaction ledger writer `logTransaction` of
  `src/backend/src/shared/transaction.service.ts`.

Monetary amounts are integers (minor currency units); JS number arithmetic on
rates and ratios is modelled with exact rationals, `Math.floor` with `Int.floor`
and `Math.round` with half-up rounding.  Database effects are modelled with
explicit state passing (ledgers are lists of rows; a transaction either commits
the new state or leaves the old state on error, via `Except`).
-/

namespace Cashflow

/-! ## JavaScript primitives used by the source -/

/-- JS `Math.round`: rounds half toward positive infinity. -/
def jsRound (x : ℚ) : ℤ := Int.floor (x + 1/2)

/-- JS `a || b` on numbers: `0` is falsy. -/
def jsOrNum (a : Option ℤ) (b : ℤ) : ℤ :=
  match a with
  | some v => if v = 0 then b else v
  | none => b

/-- JS `a || b` on optional rationals (used for `config.rate || 0`): `0` is falsy. -/
def jsOrRat (a : Option ℚ) (b : ℚ) : ℚ :=
  match a with
  | some v => if v = 0 then b else v
  | none => b

/-- JS `a || b` on optional strings: the empty string is falsy. -/
def jsOrStr (a : Option String) (b : Option String) : Option String :=
  match a with
  | some s => if s = "" then b else some s
  | none => b

/-! ## Balance allocation (core-bet.service.ts) -/

/-- The `balanceType` classification returned by the deduction
(`real`, `bonus` or `mixed`). -/
inductive BalanceType
  | real
  | bonus
  | mixed
deriving DecidableEq, Repr

/-- The result of `deductBetAmount` consumed by `executeCoreBet`: the
classification together with the exact amounts drawn from the real balance and
from each bonus bucket (`deductedFrom.real`, `deductedFrom.bonuses[].amount`).
The balance-management service itself is outside the core source; the
orchestrator only reads these fields. -/
structure BalanceDeduction where
  balanceType : BalanceType
  deductedReal : ℤ
  deductedBonuses : List ℤ
deriving DecidableEq, Repr

/-- `deductedFrom.real + deductedFrom.bonuses.reduce((sum, b) => sum + b.amount, 0)`. -/
def BalanceDeduction.totalDeducted (d : BalanceDeduction) : ℤ :=
  d.deductedReal + d.deductedBonuses.foldl (· + ·) 0

/-- The `(realWinnings, bonusWinnings)` pair computed by
`addWinningsWithinTransaction` (core-bet.service.ts lines 66-163):
nothing is credited for `winAmount ≤ 0`; a `mixed` deduction with
`totalDeducted = 0` credits everything to real; a `mixed` deduction otherwise
splits by `realWinnings = Math.round(winAmount * realDeducted / totalDeducted)`
with the remainder to bonus; a pure deduction credits everything to the same
balance (`balanceType === "bonus" ? "bonus" : "real"`). -/
def winningsSplit (d : BalanceDeduction) (winAmount : ℤ) : ℤ × ℤ :=
  if winAmount > 0 then
    match d.balanceType with
    | .mixed =>
      if d.totalDeducted = 0 then
        (winAmount, 0)
      else
        let realRatio : ℚ := (d.deductedReal : ℚ) / (d.totalDeducted : ℚ)
        let realWinnings := jsRound ((winAmount : ℚ) * realRatio)
        (realWinnings, winAmount - realWinnings)
    | .bonus => (0, winAmount)
    | .real => (winAmount, 0)
  else
    (0, 0)

/-- A user balance row as read by `executeCoreBet` before the transaction. -/
structure UserBalance where
  realBalance : ℤ
  bonusBalance : ℤ
deriving DecidableEq, Repr

/-- The result object returned by `executeCoreBet`. -/
structure BetExecutionResult where
  wagerAmount : ℤ
  winAmount : ℤ
  realBalanceBefore : ℤ
  bonusBalanceBefore : ℤ
  realBalanceAfter : ℤ
  bonusBalanceAfter : ℤ
  balanceType : BalanceType
deriving DecidableEq, Repr

/-- The committed outcome of `executeCoreBet` (lines 209-258): inside the
transaction the deduction result is combined with the winnings split and the
final balances are computed as `before - deducted + credited` for real and
bonus.  The deduction itself is passed in as data (its service lives outside
the core source); the claim quantifies over it. -/
def executeCoreBet (ub : UserBalance) (d : BalanceDeduction)
    (wagerAmount winAmount : ℤ) : BetExecutionResult :=
  let split := winningsSplit d winAmount
  { wagerAmount := wagerAmount
    winAmount := winAmount
    realBalanceBefore := ub.realBalance
    bonusBalanceBefore := ub.bonusBalance
    realBalanceAfter := ub.realBalance - d.deductedReal + split.1
    bonusBalanceAfter :=
      ub.bonusBalance - d.deductedBonuses.foldl (· + ·) 0 + split.2
    balanceType := d.balanceType }

/-! ## Jackpot pool manager (jackpot service, `src/unnamed/part_008`)

The game-to-pool mapping `getGameJackpotTypes` statically returns `["MINOR"]`,
so every operation of the manager touches a single pool row; the state below
carries that pool row, the manager's in-memory per-type configuration, and the
two append-only history tables. -/

/-- The jackpot tiers (DB enum `MINOR | MAJOR | GRAND`). -/
inductive JackpotType
  | MINOR
  | MAJOR
  | GRAND
deriving DecidableEq, Repr

/-- A jackpot pool row (`jackpotTable`): current state, configuration copy,
cumulative counters, last-win data and the optimistic-locking version. -/
structure Pool where
  jackpotType : JackpotType
  currentAmount : ℤ
  seedAmount : ℤ
  maxAmount : Option ℤ
  contributionRate : ℚ
  totalContributions : ℤ
  totalWins : ℤ
  lastWonAmount : Option ℤ
  lastWonAt : Option ℕ
  lastWonByUserId : Option String
  version : ℤ
deriving DecidableEq, Repr

/-- One per-type entry of the manager's in-memory `JackpotConfig`
(`JackpotTypeConfigSchema`): all three fields optional. -/
structure JackpotTypeConfig where
  rate : Option ℚ
  seedAmount : Option ℤ
  maxAmount : Option ℤ
deriving DecidableEq, Repr

/-- A `jackpotWinHistoryTable` row (the fields the claims are about). -/
structure WinRecord where
  jackpotType : JackpotType
  userId : String
  gameId : String
  amountWon : ℤ
deriving DecidableEq, Repr

/-- A `jackpotContributionHistoryTable` row (the fields the claims are about). -/
structure ContributionRecord where
  jackpotType : JackpotType
  wagerAmount : ℤ
  contributionAmount : ℤ
  gameId : String
deriving DecidableEq, Repr

/-- The error taxonomy of `app-errors` (validation, insufficient funds,
concurrency, database, system), as raised by `createValidationError`,
`createInsufficientFundsError`, `createConcurrencyError`,
`createDatabaseError` and `createSystemError`. -/
inductive ErrorKind
  | validation
  | insufficientFunds
  | concurrency
  | database
  | system
deriving DecidableEq, Repr

/-- An application error: its kind plus the error code string. -/
structure JackpotError where
  kind : ErrorKind
  code : String
deriving DecidableEq, Repr

/-- Modelled from the spec: the error module `app-errors` (which provides
`AppError.isRetryable`) is not among the given sources, only its callers are.
Spec §7: concurrency and database faults "are retried internally up to the
bound"; validation and insufficient-funds faults are "never retried", and a
system fault indicates an invariant violation, not a transient condition. -/
def JackpotError.isRetryable (e : JackpotError) : Bool :=
  match e.kind with
  | .concurrency => true
  | .database => true
  | _ => false

/-- The manager's state for the single pool resolved by the static game
mapping: in-memory config, the committed pool row, and the history tables. -/
structure ManagerState where
  config : JackpotTypeConfig
  pool : Pool
  contributionHistory : List ContributionRecord
  winHistory : List WinRecord
deriving DecidableEq, Repr

/-- `getGameJackpotTypes` of `JackpotManager`: statically `["MINOR"]`. -/
def getGameJackpotTypes (_gameId : String) : List JackpotType := [.MINOR]

/-- The per-type contribution map returned by `contribute`. -/
structure ContributionMap where
  MINOR : ℤ
  MAJOR : ℤ
  GRAND : ℤ
deriving DecidableEq, Repr

/-- The all-zero contribution map. -/
def ContributionMap.zero : ContributionMap := ⟨0, 0, 0⟩

/-- `contributions[type] = amount`. -/
def ContributionMap.set (c : ContributionMap) (t : JackpotType) (v : ℤ) :
    ContributionMap :=
  match t with
  | .MINOR => { c with MINOR := v }
  | .MAJOR => { c with MAJOR := v }
  | .GRAND => { c with GRAND := v }

/-- `validateJackpotWinRequest`: `winAmount` must be a positive integer when
present (it is optional). -/
def validWinRequest (winAmount : Option ℤ) : Bool :=
  match winAmount with
  | some v => v > 0
  | none => true

/-- The effective win amount `validatedWinAmount || pool.currentAmount` of
`processWin`: the whole current amount when `winAmount` is omitted. -/
def effectiveWinAmount (winAmount : Option ℤ) (pool : Pool) : ℤ :=
  jsOrNum winAmount pool.currentAmount

/-- The body of `JackpotManager.processWin` (the `updateFn` run under
`ConcurrencySafeDB.pessimisticUpdate`): validates
`0 < actualWinAmount ≤ currentAmount`, raising a validation or
insufficient-funds fault otherwise; on success resets `currentAmount` to
`newAmount < seedAmount ? seedAmount : newAmount`, advances `totalWins`,
updates the `lastWon*` fields, increments `version` and inserts one win-history
row, returning `(actualWinAmount, remainingAmount)`.  An error leaves the
state untouched (the transaction rolls back). -/
def processWinTx (s : ManagerState) (userId gameId : String)
    (winAmount : Option ℤ) (now : ℕ) :
    Except JackpotError (ManagerState × ℤ × ℤ) :=
  let pool := s.pool
  let actualWinAmount := jsOrNum winAmount pool.currentAmount
  if actualWinAmount ≤ 0 then
    .error ⟨.validation, "VALIDATION_INVALID_AMOUNT"⟩
  else if actualWinAmount > pool.currentAmount then
    .error ⟨.insufficientFunds, "INSUFFICIENT_JACKPOT_FUNDS"⟩
  else
    let newAmount := pool.currentAmount - actualWinAmount
    let resetAmount := if newAmount < pool.seedAmount then pool.seedAmount else newAmount
    let pool' := { pool with
      currentAmount := resetAmount
      totalWins := pool.totalWins + actualWinAmount
      lastWonAmount := some actualWinAmount
      lastWonAt := some now
      lastWonByUserId := some userId
      version := pool.version + 1 }
    .ok ({ s with
            pool := pool'
            winHistory := s.winHistory ++
              [⟨pool.jackpotType, userId, gameId, actualWinAmount⟩] },
         actualWinAmount, resetAmount)

/-- The contribution computed for one pool inside `JackpotManager.contribute`:
`contribution = Math.floor(wagerAmount * (config.rate || 0))`; when positive it
is clamped to `max(0, maxAmount - currentAmount)` if the config has a truthy
`maxAmount` that `currentAmount + contribution` would exceed; anything not
strictly positive is skipped (yields `0`). -/
def appliedContribution (cfg : JackpotTypeConfig)
    (currentAmount wagerAmount : ℤ) : ℤ :=
  let contribution := Int.floor ((wagerAmount : ℚ) * jsOrRat cfg.rate 0)
  if contribution > 0 then
    let actual :=
      match cfg.maxAmount with
      | some m =>
        if m ≠ 0 ∧ currentAmount + contribution > m then
          max 0 (m - currentAmount)
        else contribution
      | none => contribution
    if actual > 0 then actual else 0
  else 0

/-- The body of `JackpotManager.contribute` for the single resolved pool (the
`updateFn` run under `batchOptimisticUpdate`): a positive applied contribution
advances `currentAmount` and `totalContributions` by exactly that amount,
increments `version` and inserts one contribution-history row; a zero applied
contribution mutates nothing and writes nothing.  Returns the new state, the
per-type contribution map and the total. -/
def contributeTx (s : ManagerState) (gameId : String) (wagerAmount : ℤ) :
    ManagerState × ContributionMap × ℤ :=
  let applied := appliedContribution s.config s.pool.currentAmount wagerAmount
  if applied > 0 then
    ({ s with
        pool := { s.pool with
          currentAmount := s.pool.currentAmount + applied
          totalContributions := s.pool.totalContributions + applied
          version := s.pool.version + 1 }
        contributionHistory := s.contributionHistory ++
          [⟨s.pool.jackpotType, wagerAmount, applied, gameId⟩] },
     ContributionMap.zero.set s.pool.jackpotType applied, applied)
  else
    (s, ContributionMap.zero, 0)

/-- `JackpotTypeConfigSchema` validation: `rate ∈ [0,1]`, positive integer
`seedAmount` and `maxAmount`, and `maxAmount > seedAmount` when both present. -/
def validTypeConfig (c : JackpotTypeConfig) : Bool :=
  (match c.rate with | some r => decide (0 ≤ r ∧ r ≤ 1) | none => true) &&
  (match c.seedAmount with | some v => decide (0 < v) | none => true) &&
  (match c.maxAmount with | some v => decide (0 < v) | none => true) &&
  (match c.maxAmount, c.seedAmount with
   | some m, some sd => decide (m > sd)
   | _, _ => true)

/-- The per-pool row update of `updateConfig`: sets whichever of `seedAmount`,
`maxAmount`, `contributionRate` the validated patch carries and increments
`version`. -/
def applyConfigUpdate (pool : Pool) (c : JackpotTypeConfig) : Pool :=
  let p1 := { pool with version := pool.version + 1 }
  let p2 := match c.seedAmount with
    | some v => { p1 with seedAmount := v }
    | none => p1
  let p3 := match c.maxAmount with
    | some v => { p2 with maxAmount := some v }
    | none => p2
  match c.rate with
  | some r => { p3 with contributionRate := r }
  | none => p3

/-- `JackpotManager.updateConfig` for the single pool: validates the patch
(raising a validation fault and touching nothing on failure), then merges it
into the in-memory config (`this.config = {...this.config, ...validated}` —
the per-type entry is replaced), and only then persists the row change via the
batch optimistic update.  `persistResult` injects the outcome of that
persistence (`none` = committed, `some e` = the fault it surfaced); on a
persistence fault the error propagates but the already-merged in-memory config
is not rolled back. -/
def updateConfigRun (s : ManagerState) (patch : Option JackpotTypeConfig)
    (persistResult : Option JackpotError) :
    ManagerState × Option JackpotError :=
  match patch with
  | none => (s, none)
  | some c =>
    if validTypeConfig c then
      let s1 := { s with config := c }
      match persistResult with
      | none => ({ s1 with pool := applyConfigUpdate s1.pool c }, none)
      | some e => (s1, some e)
    else
      (s, some ⟨.validation, "VALIDATION_INVALID_CONFIG"⟩)

/-- `JackpotManager.getConfig`: returns (a copy of) the in-memory config. -/
def getConfig (s : ManagerState) : JackpotTypeConfig := s.config

/-- A pool-manager operation (the transitions of spec §4.2: `Contribute`,
`Win`, `UpdateConfig`). -/
inductive Op
  | contribute (gameId : String) (wagerAmount : ℤ)
  | win (userId gameId : String) (winAmount : Option ℤ) (now : ℕ)
  | updateConfig (patch : JackpotTypeConfig)
deriving DecidableEq, Repr

/-- The committed state after one manager operation: request validation or a
transaction error leaves the state untouched (nothing commits); otherwise the
transaction's new state commits.  `updateConfig` here is the committed
(successful-persistence) path; its failure path is `updateConfigRun` with an
injected fault. -/
def runOp (s : ManagerState) (op : Op) : ManagerState :=
  match op with
  | .contribute gameId wager =>
    if wager > 0 then (contributeTx s gameId wager).1 else s
  | .win userId gameId winAmount now =>
    if validWinRequest winAmount then
      match processWinTx s userId gameId winAmount now with
      | .ok out => out.1
      | .error _ => s
    else s
  | .updateConfig patch => (updateConfigRun s (some patch) none).1

/-- The committed state after a sequence of manager operations. -/
def runOps (s : ManagerState) (ops : List Op) : ManagerState := ops.foldl runOp s

/-- The pool invariant claimed by the spec: non-negative `currentAmount`, and
`currentAmount ≤ maxAmount` whenever `maxAmount` is set. -/
def poolInvariant (p : Pool) : Bool :=
  decide (0 ≤ p.currentAmount) &&
  (match p.maxAmount with
   | some m => decide (p.currentAmount ≤ m)
   | none => true)

/-- A well-formed manager state: non-negative pool, in-memory cap agreeing
with the row cap, and — when capped — a positive cap bounding both the current
amount and the seed. -/
def StateOk (s : ManagerState) : Prop :=
  0 ≤ s.pool.currentAmount ∧
  s.config.maxAmount = s.pool.maxAmount ∧
  (∀ m, s.pool.maxAmount = some m →
    0 < m ∧ s.pool.currentAmount ≤ m ∧ s.pool.seedAmount ≤ m)

/-- The MINOR pool row created at bootstrap by `ensureInitialized` from
`getDefaultJackpotConfig().minor` (`currentAmount = seedAmount = 100000`,
`maxAmount = 1000000`, `contributionRate = 0.02`), with the schema defaults
`totalContributions = totalWins = 0` and `version = 0`, together with the
matching in-memory default configuration. -/
def initialMinorState : ManagerState :=
  { config := { rate := some (1/50), seedAmount := some 100000,
                maxAmount := some 1000000 }
    pool := { jackpotType := .MINOR
              currentAmount := 100000
              seedAmount := 100000
              maxAmount := some 1000000
              contributionRate := 1/50
              totalContributions := 0
              totalWins := 0
              lastWonAmount := none
              lastWonAt := none
              lastWonByUserId := none
              version := 0 }
    contributionHistory := []
    winHistory := [] }

/-! ## Concurrency-safe optimistic executor (`ConcurrencySafeDB`) -/

/-- `MAX_RETRY_ATTEMPTS`. -/
def MAX_RETRY_ATTEMPTS : ℕ := 3

/-- `RETRY_DELAY_MS` (the backoff base delay, in milliseconds). -/
def RETRY_DELAY_MS : ℕ := 100

/-- A raw store error (anything that is not an application `JackpotError`):
its message and optional store error code, the metadata `isConcurrencyError`
inspects. -/
structure StoreError where
  message : String
  code : Option String
deriving DecidableEq, Repr

/-- `message.includes(pattern)`. -/
def containsSubstring (s pat : String) : Bool :=
  decide (pat.toList <:+: s.toList)

/-- `isConcurrencyError`: the single transient-fault classification predicate:
a lowercased message containing "concurrent", "lock", "deadlock", "timeout",
"serialization" or "version", or store code 40001 (serialization failure),
40P01 (deadlock detected) or 23505 (unique violation). -/
def isConcurrencyError (e : StoreError) : Bool :=
  let m := e.message.toLower
  containsSubstring m "concurrent" || containsSubstring m "lock" ||
  containsSubstring m "deadlock" || containsSubstring m "timeout" ||
  containsSubstring m "serialization" || containsSubstring m "version" ||
  e.code == some "40001" || e.code == some "40P01" || e.code == some "23505"

/-- What one transaction attempt can throw: an application `JackpotError`
(`instanceof JackpotError`) or a raw store error. -/
inductive ThrownError
  | app (e : JackpotError)
  | store (e : StoreError)
deriving DecidableEq, Repr

/-- The observable outcome of the retry loop: the surfaced result (with the
`retryCount` on success), the number of attempts performed, and the backoff
delays slept between attempts. -/
structure RetryRun (α : Type) where
  result : Except JackpotError (α × ℕ)
  attemptsUsed : ℕ
  delays : List ℕ
deriving Repr

/-- The retry loop of `ConcurrencySafeDB.optimisticUpdate` (lines 369-436):
`outcomes attempt` is what the transaction body does on that attempt (the
mutate-and-version-check body; a version conflict surfaces as a concurrency
`JackpotError`).  A retryable `JackpotError` with `attempt < maxRetries`
retries after `RETRY_DELAY_MS * 2 ^ attempt`; a non-retryable one is rethrown
as is; a raw error classified by `isConcurrencyError` retries the same way,
any other raw error is wrapped in a database fault immediately; a classified
raw error on the final attempt is also wrapped in a database fault.  The fuel
argument only bounds the recursion (it starts at `maxRetries`, which the
`attempt < maxRetries` guards never exhaust). -/
def optimisticGo {α : Type} (outcomes : ℕ → Except ThrownError α)
    (maxRetries : ℕ) : ℕ → ℕ → RetryRun α
  | 0, _ => ⟨.error ⟨.system, "SYSTEM_UNEXPECTED_STATE"⟩, 0, []⟩
  | fuel + 1, attempt =>
    match outcomes attempt with
    | .ok v => ⟨.ok (v, attempt - 1), 1, []⟩
    | .error (.app e) =>
      if e.isRetryable = true ∧ attempt < maxRetries then
        let r := optimisticGo outcomes maxRetries fuel (attempt + 1)
        ⟨r.result, r.attemptsUsed + 1, RETRY_DELAY_MS * 2 ^ attempt :: r.delays⟩
      else ⟨.error e, 1, []⟩
    | .error (.store e) =>
      if isConcurrencyError e = true ∧ attempt < maxRetries then
        let r := optimisticGo outcomes maxRetries fuel (attempt + 1)
        ⟨r.result, r.attemptsUsed + 1, RETRY_DELAY_MS * 2 ^ attempt :: r.delays⟩
      else ⟨.error ⟨.database, "DATABASE_CONNECTION_FAILED"⟩, 1, []⟩

/-- `ConcurrencySafeDB.optimisticUpdate` with the default retry bound. -/
def optimisticUpdate {α : Type} (outcomes : ℕ → Except ThrownError α) :
    RetryRun α :=
  optimisticGo outcomes MAX_RETRY_ATTEMPTS MAX_RETRY_ATTEMPTS 1

/-! ## Public jackpot contribution wrapper and bet listener -/

/-- The `JackpotContributionResult` returned by `processJackpotContribution`. -/
structure JackpotContributionResult where
  success : Bool
  contributions : ContributionMap
  totalContribution : ℤ
  error : Option String
deriving DecidableEq, Repr

/-- `processJackpotContribution`: wraps `jackpotManager.contribute` (whose
outcome — the contribution data or the fault it threw — is the argument); any
error is caught, logged, and converted into `success = false` with the
all-zero per-type map and total 0. -/
def processJackpotContribution
    (contributeOutcome : Except JackpotError (ContributionMap × ℤ)) :
    JackpotContributionResult :=
  match contributeOutcome with
  | .ok r => ⟨true, r.1, r.2, none⟩
  | .error e => ⟨false, ContributionMap.zero, 0, some e.code⟩

/-- The bet-completion jackpot listener `onBetCompleted`
(bet-jackpot.processor.ts): awaits `processJackpotContribution` and returns its
`totalContribution`; its own try/catch returns 0 if that call throws. -/
def onBetCompleted
    (call : Except JackpotError JackpotContributionResult) : ℤ :=
  match call with
  | .ok result => result.totalContribution
  | .error _ => 0

/-! ## Transaction ledger writer (`transaction.service.ts`) -/

/-- A `transactionLogTable` row, restricted to the fields C7 concerns
(`txType` embeds the `type` column). -/
structure TxRow where
  userId : String
  txType : String
  relatedId : Option String
  wagerAmount : ℤ
  realBalanceBefore : ℤ
  realBalanceAfter : ℤ
  bonusBalanceBefore : ℤ
  bonusBalanceAfter : ℤ
deriving DecidableEq, Repr

/-- The loosely-typed listener payload consumed by `logTransaction`. -/
structure LogPayload where
  userId : String
  txType : String
  relatedId : Option String
  depositId : Option String
  wagerAmount : Option ℤ
  winAmount : Option ℤ
  amount : Option ℤ
  realBalanceBefore : ℤ
  realBalanceAfter : ℤ
  bonusBalanceBefore : ℤ
  bonusBalanceAfter : ℤ
deriving DecidableEq, Repr

/-- The base `dbPayload` built from the listener payload
(`relatedId: payload.relatedId || payload.depositId`). -/
def basePayloadRow (p : LogPayload) : TxRow :=
  { userId := p.userId
    txType := p.txType
    relatedId := jsOrStr p.relatedId p.depositId
    wagerAmount := 0
    realBalanceBefore := p.realBalanceBefore
    realBalanceAfter := p.realBalanceAfter
    bonusBalanceBefore := p.bonusBalanceBefore
    bonusBalanceAfter := p.bonusBalanceAfter }

/-- Record 1 of a BET: the debit row (`wagerAmount: payload.wagerAmount || 0`). -/
def betRow (p : LogPayload) : TxRow :=
  { basePayloadRow p with txType := "BET", wagerAmount := jsOrNum p.wagerAmount 0 }

/-- Record 2 of a BET: the paired WIN credit row — the win amount stored in the
overloaded `wagerAmount` column, using the payload's overall final before/after
balances. -/
def winRow (p : LogPayload) : TxRow :=
  { basePayloadRow p with txType := "WIN", wagerAmount := jsOrNum p.winAmount 0 }

/-- The guard `payload.winAmount && payload.winAmount > 0`. -/
def winGuard (p : LogPayload) : Bool :=
  match p.winAmount with
  | some v => decide (v ≠ 0) && decide (v > 0)
  | none => false

/-- `logTransaction` acting on the append-only ledger, with injected insert
outcomes: `insertOk` lists whether each successive `db.insert` of this call
succeeds.  The inserts are separate statements — no wrapping transaction —
so rows inserted before a failure stay committed; the surrounding try/catch
logs and swallows every failure, so the function always returns normally. -/
def logTransaction (ledger : List TxRow) (p : LogPayload)
    (insertOk : List Bool) : List TxRow :=
  if p.txType = "DEPOSIT" then
    let row := { basePayloadRow p with
      txType := "DEPOSIT"
      wagerAmount := jsOrNum p.winAmount (jsOrNum p.amount 0) }
    if insertOk.headD false then ledger ++ [row] else ledger
  else if p.txType = "BET" then
    if insertOk.headD false then
      let l1 := ledger ++ [betRow p]
      if winGuard p then
        if (insertOk.drop 1).headD false then l1 ++ [winRow p] else l1
      else l1
    else ledger
  else
    let row := { basePayloadRow p with
      wagerAmount := jsOrNum p.wagerAmount (jsOrNum p.amount 0) }
    if insertOk.headD false then ledger ++ [row] else ledger

/-- Helper: the two winnings portions always sum to `winAmount` when
`winAmount ≥ 0` (for `winAmount > 0` the bonus part is literally the
remainder; for `winAmount = 0` both parts are zero). -/
theorem winningsSplit_sum (d : BalanceDeduction) (winAmount : ℤ)
    (h : 0 ≤ winAmount) :
    (winningsSplit d winAmount).1 + (winningsSplit d winAmount).2 = winAmount := by
  unfold winningsSplit
  rcases lt_or_eq_of_le h with hpos | hzero
  · simp only [hpos, if_pos]
    cases d.balanceType <;> simp
    by_cases htd : d.totalDeducted = 0 <;> simp [htd]
  · simp [← hzero]

/-- C2: the winnings-credit rule of `addWinningsWithinTransaction`: a pure
deduction credits the whole `winAmount` to the same balance; a mixed deduction
with zero total credits everything to real; otherwise the real portion is the
rounded pro-rata share and the bonus portion the exact remainder, so the two
portions always sum to exactly `winAmount`. -/
theorem addWinnings_split_correct (d : BalanceDeduction) (winAmount : ℤ)
    (hw : 0 ≤ winAmount) :
    (d.balanceType = .real → winningsSplit d winAmount = (winAmount, 0)) ∧
    (d.balanceType = .bonus → winningsSplit d winAmount = (0, winAmount)) ∧
    (d.balanceType = .mixed → d.totalDeducted = 0 →
      winningsSplit d winAmount = (winAmount, 0)) ∧
    (d.balanceType = .mixed → d.totalDeducted ≠ 0 →
      (winningsSplit d winAmount).1 =
        (if winAmount > 0 then
          jsRound ((winAmount : ℚ) * ((d.deductedReal : ℚ) / (d.totalDeducted : ℚ)))
         else 0) ∧
      (winningsSplit d winAmount).1 + (winningsSplit d winAmount).2 = winAmount) := by
  refine ⟨?_, ?_, ?_, ?_⟩
  · intro hb
    unfold winningsSplit
    rcases lt_or_eq_of_le hw with hpos | hzero
    · simp [hb, hpos]
    · simp [hb, ← hzero]
  · intro hb
    unfold winningsSplit
    rcases lt_or_eq_of_le hw with hpos | hzero
    · simp [hb, hpos]
    · simp [hb, ← hzero]
  · intro hb htd
    unfold winningsSplit
    rcases lt_or_eq_of_le hw with hpos | hzero
    · simp [hb, hpos, htd]
    · simp [hb, ← hzero]
  · intro hb htd
    refine ⟨?_, winningsSplit_sum d winAmount hw⟩
    unfold winningsSplit
    rcases lt_or_eq_of_le hw with hpos | hzero
    · simp [hb, hpos, htd]
    · simp [← hzero]

/-- Witness for C2 at a concrete mixed deduction: 60 drawn from real and 40
from bonus, a win of 25 splits into round(25·60/100) = 15 real and 10 bonus. -/
theorem addWinnings_split_correct_witness :
    (0:ℤ) ≤ 25 ∧
    (winningsSplit ⟨.mixed, 60, [40]⟩ 25 = (15, 10) ∧
      (winningsSplit ⟨.mixed, 60, [40]⟩ 25).1 +
        (winningsSplit ⟨.mixed, 60, [40]⟩ 25).2 = 25) := by
  have h := addWinnings_split_correct ⟨.mixed, 60, [40]⟩ 25 (by decide)
  have hsplit : winningsSplit ⟨.mixed, 60, [40]⟩ 25 = (15, 10) := by
    norm_num [winningsSplit, BalanceDeduction.totalDeducted, jsRound]
  refine ⟨by decide, hsplit, ?_⟩
  exact (h.2.2.2 rfl (by decide)).2

/-- C1: balance conservation for every committed bet: provided the deduction
drew exactly `wagerAmount` in total from the real and bonus sources and the
declared win is non-negative, the returned result satisfies
`realAfter + bonusAfter = realBefore + bonusBefore - wagerAmount + winAmount`. -/
theorem executeCoreBet_balance_conservation (ub : UserBalance)
    (d : BalanceDeduction) (wagerAmount winAmount : ℤ)
    (hdeduct : d.totalDeducted = wagerAmount) (hwin : 0 ≤ winAmount) :
    (executeCoreBet ub d wagerAmount winAmount).realBalanceAfter +
      (executeCoreBet ub d wagerAmount winAmount).bonusBalanceAfter =
    (executeCoreBet ub d wagerAmount winAmount).realBalanceBefore +
      (executeCoreBet ub d wagerAmount winAmount).bonusBalanceBefore -
      wagerAmount + winAmount := by
  have hsum := winningsSplit_sum d winAmount hwin
  unfold executeCoreBet
  simp only [BalanceDeduction.totalDeducted] at hdeduct
  simp only
  omega

/-- Witness for C1: balances (1000 real, 500 bonus), a mixed deduction of
60 + 40 = 100 and a win of 25. -/
theorem executeCoreBet_balance_conservation_witness :
    ((⟨.mixed, 60, [40]⟩ : BalanceDeduction).totalDeducted = 100 ∧ (0:ℤ) ≤ 25) ∧
    ((executeCoreBet ⟨1000, 500⟩ ⟨.mixed, 60, [40]⟩ 100 25).realBalanceAfter +
      (executeCoreBet ⟨1000, 500⟩ ⟨.mixed, 60, [40]⟩ 100 25).bonusBalanceAfter =
     (executeCoreBet ⟨1000, 500⟩ ⟨.mixed, 60, [40]⟩ 100 25).realBalanceBefore +
      (executeCoreBet ⟨1000, 500⟩ ⟨.mixed, 60, [40]⟩ 100 25).bonusBalanceBefore -
      100 + 25) := by
  refine ⟨⟨by decide, by decide⟩, ?_⟩
  exact executeCoreBet_balance_conservation ⟨1000, 500⟩ ⟨.mixed, 60, [40]⟩ 100 25
    (by decide) (by decide)

/-- Helper: what a successful `processWin` transaction guarantees about its
committed state, for any outcome it actually returns. -/
theorem processWinTx_ok (s : ManagerState) (u g : String) (w : Option ℤ)
    (now : ℕ) (out : ManagerState × ℤ × ℤ)
    (h : processWinTx s u g w now = .ok out) :
    out.1.pool.currentAmount = max (s.pool.currentAmount - out.2.1) s.pool.seedAmount ∧
    0 < out.2.1 ∧ out.2.1 ≤ s.pool.currentAmount ∧
    out.1.pool.seedAmount = s.pool.seedAmount ∧
    out.1.pool.maxAmount = s.pool.maxAmount ∧
    out.1.config = s.config := by
  unfold processWinTx at h
  dsimp only at h
  split_ifs at h with h1 h2 h3 <;>
    (rw [Except.ok.injEq] at h
     subst h
     dsimp only
     exact ⟨by omega, by omega, by omega, rfl, rfl, rfl⟩)

/-- C3: successful jackpot win settlement: when the effective win amount `w`
satisfies `0 < w ≤ currentAmount`, the committed pool has
`currentAmount = max(currentAmount - w, seedAmount)`, `totalWins` advanced by
`w`, the `lastWon*` fields updated, `version` incremented by one, and exactly
one win-history record appended in the same transaction. -/
theorem processWin_settles_correctly (s : ManagerState) (userId gameId : String)
    (winAmount : Option ℤ) (now : ℕ)
    (hpos : 0 < effectiveWinAmount winAmount s.pool)
    (hle : effectiveWinAmount winAmount s.pool ≤ s.pool.currentAmount) :
    ∃ s1, processWinTx s userId gameId winAmount now =
        .ok (s1, effectiveWinAmount winAmount s.pool,
          max (s.pool.currentAmount - effectiveWinAmount winAmount s.pool)
            s.pool.seedAmount) ∧
      s1.pool.currentAmount =
        max (s.pool.currentAmount - effectiveWinAmount winAmount s.pool)
          s.pool.seedAmount ∧
      s1.pool.totalWins = s.pool.totalWins + effectiveWinAmount winAmount s.pool ∧
      s1.pool.lastWonAmount = some (effectiveWinAmount winAmount s.pool) ∧
      s1.pool.lastWonAt = some now ∧
      s1.pool.lastWonByUserId = some userId ∧
      s1.pool.version = s.pool.version + 1 ∧
      s1.winHistory = s.winHistory ++
        [⟨s.pool.jackpotType, userId, gameId, effectiveWinAmount winAmount s.pool⟩] ∧
      s1.contributionHistory = s.contributionHistory := by
  unfold effectiveWinAmount at hpos hle ⊢
  have hreset :
      (if s.pool.currentAmount - jsOrNum winAmount s.pool.currentAmount <
          s.pool.seedAmount then s.pool.seedAmount
        else s.pool.currentAmount - jsOrNum winAmount s.pool.currentAmount) =
      max (s.pool.currentAmount - jsOrNum winAmount s.pool.currentAmount)
        s.pool.seedAmount := by
    split_ifs <;> omega
  have key : processWinTx s userId gameId winAmount now = .ok
      ({ config := s.config
         pool := { jackpotType := s.pool.jackpotType
                   currentAmount :=
                     max (s.pool.currentAmount -
                       jsOrNum winAmount s.pool.currentAmount) s.pool.seedAmount
                   seedAmount := s.pool.seedAmount
                   maxAmount := s.pool.maxAmount
                   contributionRate := s.pool.contributionRate
                   totalContributions := s.pool.totalContributions
                   totalWins := s.pool.totalWins +
                     jsOrNum winAmount s.pool.currentAmount
                   lastWonAmount := some (jsOrNum winAmount s.pool.currentAmount)
                   lastWonAt := some now
                   lastWonByUserId := some userId
                   version := s.pool.version + 1 }
         contributionHistory := s.contributionHistory
         winHistory := s.winHistory ++
           [⟨s.pool.jackpotType, userId, gameId,
             jsOrNum winAmount s.pool.currentAmount⟩] },
       jsOrNum winAmount s.pool.currentAmount,
       max (s.pool.currentAmount - jsOrNum winAmount s.pool.currentAmount)
         s.pool.seedAmount) := by
    unfold processWinTx
    dsimp only
    rw [if_neg (by omega), if_neg (by omega), hreset]
  exact ⟨_, key, rfl, rfl, rfl, rfl, rfl, rfl, rfl, rfl⟩

/-- Witness for C3: a pool at 100 with seed 20 and a declared win of 90 settles
to `max(10, 20) = 20` (the spec's own example), with all bookkeeping fields. -/
theorem processWin_settles_correctly_witness :
    (0 < effectiveWinAmount (some 90)
        ⟨.MINOR, 100, 20, none, 1/50, 0, 0, none, none, none, 0⟩ ∧
      effectiveWinAmount (some 90)
        ⟨.MINOR, 100, 20, none, 1/50, 0, 0, none, none, none, 0⟩ ≤ 100) ∧
    ∃ s1, processWinTx
        ⟨⟨none, none, none⟩,
         ⟨.MINOR, 100, 20, none, 1/50, 0, 0, none, none, none, 0⟩, [], []⟩
        "user-1" "game-1" (some 90) 7 = .ok (s1, 90, 20) ∧
      s1.pool.currentAmount = 20 := by
  have h := processWin_settles_correctly
    ⟨⟨none, none, none⟩,
     ⟨.MINOR, 100, 20, none, 1/50, 0, 0, none, none, none, 0⟩, [], []⟩
    "user-1" "game-1" (some 90) 7 (by decide) (by decide)
  obtain ⟨s1, heq, hcur, _⟩ := h
  refine ⟨⟨by decide, by decide⟩, s1, ?_, ?_⟩
  · have hw : effectiveWinAmount (some 90)
        ⟨.MINOR, 100, 20, none, 1/50, 0, 0, none, none, none, 0⟩ = 90 := by decide
    have hm : max ((100:ℤ) - 90) 20 = 20 := by decide
    rw [hw] at heq
    simpa [hm] using heq
  · have hm : max ((100:ℤ) - 90) 20 = 20 := by decide
    have hw : effectiveWinAmount (some 90)
        ⟨.MINOR, 100, 20, none, 1/50, 0, 0, none, none, none, 0⟩ = 90 := by decide
    rw [hw, hm] at hcur
    exact hcur

/-- C6: jackpot win settlement error handling: an effective win amount `≤ 0`
raises the validation (invalid-amount) fault and one exceeding `currentAmount`
raises the insufficient-funds fault — both non-retryable, and an error commits
nothing (no pool mutation, no win record); a successful settlement awards
exactly the effective amount (never a clamped one); and an omitted `winAmount`
makes the effective win amount the pool's entire `currentAmount`. -/
theorem processWin_fault_behaviour (s : ManagerState) (userId gameId : String)
    (winAmount : Option ℤ) (now : ℕ) :
    (effectiveWinAmount winAmount s.pool ≤ 0 →
      processWinTx s userId gameId winAmount now =
        .error ⟨.validation, "VALIDATION_INVALID_AMOUNT"⟩) ∧
    (0 < effectiveWinAmount winAmount s.pool →
      s.pool.currentAmount < effectiveWinAmount winAmount s.pool →
      processWinTx s userId gameId winAmount now =
        .error ⟨.insufficientFunds, "INSUFFICIENT_JACKPOT_FUNDS"⟩) ∧
    (∀ e, processWinTx s userId gameId winAmount now = .error e →
      e.isRetryable = false ∧ runOp s (.win userId gameId winAmount now) = s) ∧
    (∀ out, processWinTx s userId gameId winAmount now = .ok out →
      out.2.1 = effectiveWinAmount winAmount s.pool) ∧
    (winAmount = none →
      effectiveWinAmount winAmount s.pool = s.pool.currentAmount) := by
  unfold effectiveWinAmount
  refine ⟨?_, ?_, ?_, ?_, ?_⟩
  · intro h
    unfold processWinTx
    dsimp only
    rw [if_pos h]
  · intro h1 h2
    unfold processWinTx
    dsimp only
    rw [if_neg (by omega), if_pos (by omega)]
  · intro e he
    constructor
    · unfold processWinTx at he
      dsimp only at he
      split_ifs at he <;>
        (rw [Except.error.injEq] at he
         subst he
         rfl)
    · simp only [runOp, he]
      split_ifs <;> rfl
  · intro out hout
    unfold processWinTx at hout
    dsimp only at hout
    split_ifs at hout <;>
      (rw [Except.ok.injEq] at hout
       subst hout
       rfl)
  · intro h
    subst h
    rfl

/-- Witness for C6: a declared win of 150 against a pool holding 100 raises
the insufficient-funds fault. -/
theorem processWin_fault_behaviour_witness :
    ((0:ℤ) < effectiveWinAmount (some 150)
        ⟨.MINOR, 100, 20, none, 1/50, 0, 0, none, none, none, 0⟩ ∧
      (100:ℤ) < effectiveWinAmount (some 150)
        ⟨.MINOR, 100, 20, none, 1/50, 0, 0, none, none, none, 0⟩) ∧
    processWinTx
      ⟨⟨none, none, none⟩,
       ⟨.MINOR, 100, 20, none, 1/50, 0, 0, none, none, none, 0⟩, [], []⟩
      "user-1" "game-1" (some 150) 3 =
      .error ⟨.insufficientFunds, "INSUFFICIENT_JACKPOT_FUNDS"⟩ := by
  refine ⟨⟨by decide, by decide⟩, ?_⟩
  exact (processWin_fault_behaviour
    ⟨⟨none, none, none⟩,
     ⟨.MINOR, 100, 20, none, 1/50, 0, 0, none, none, none, 0⟩, [], []⟩
    "user-1" "game-1" (some 150) 3).2.1 (by decide) (by decide)

/-- Helper: the applied contribution is never negative. -/
theorem appliedContribution_nonneg (cfg : JackpotTypeConfig)
    (current wager : ℤ) : 0 ≤ appliedContribution cfg current wager := by
  unfold appliedContribution
  dsimp only
  cases hm : cfg.maxAmount with
  | none =>
    dsimp only
    split_ifs <;> omega
  | some m =>
    dsimp only
    split_ifs <;> omega

/-- Helper: with a positive configured cap and a pool at or below it, a
contribution never pushes the pool past the cap. -/
theorem appliedContribution_cap (cfg : JackpotTypeConfig)
    (current wager m : ℤ) (hm : cfg.maxAmount = some m) (hmpos : 0 < m)
    (hcur : current ≤ m) :
    current + appliedContribution cfg current wager ≤ m := by
  unfold appliedContribution
  rw [hm]
  dsimp only
  split_ifs <;> omega

/-- C4: jackpot contribution arithmetic for the resolved pool: the applied
contribution is `floor(wagerAmount * rate)`, clamped to
`max(0, maxAmount - currentAmount)` when a positive cap is configured and the
computed contribution would push the pool past it (a pool below its cap that
gets clamped ends exactly at `maxAmount`); a zero applied contribution mutates
nothing and writes no record, and the call returns the all-zero map and total
0; a positive one advances `currentAmount` and `totalContributions` by exactly
that amount, increments `version`, appends exactly one contribution record,
and the call returns it in the per-type map and as the total. -/
theorem contribute_applies_correctly (s : ManagerState) (gameId : String)
    (wagerAmount : ℤ) (hw : 0 < wagerAmount)
    (hr : 0 ≤ jsOrRat s.config.rate 0) :
    (s.config.maxAmount = none →
      appliedContribution s.config s.pool.currentAmount wagerAmount =
        Int.floor ((wagerAmount : ℚ) * jsOrRat s.config.rate 0)) ∧
    (∀ m, s.config.maxAmount = some m → 0 < m →
      s.pool.currentAmount +
          Int.floor ((wagerAmount : ℚ) * jsOrRat s.config.rate 0) ≤ m →
      appliedContribution s.config s.pool.currentAmount wagerAmount =
        Int.floor ((wagerAmount : ℚ) * jsOrRat s.config.rate 0)) ∧
    (∀ m, s.config.maxAmount = some m → 0 < m →
      m < s.pool.currentAmount +
            Int.floor ((wagerAmount : ℚ) * jsOrRat s.config.rate 0) →
      appliedContribution s.config s.pool.currentAmount wagerAmount =
        max 0 (m - s.pool.currentAmount) ∧
      (s.pool.currentAmount < m →
        (contributeTx s gameId wagerAmount).1.pool.currentAmount = m)) ∧
    (appliedContribution s.config s.pool.currentAmount wagerAmount = 0 →
      contributeTx s gameId wagerAmount = (s, ContributionMap.zero, 0)) ∧
    (0 < appliedContribution s.config s.pool.currentAmount wagerAmount →
      (contributeTx s gameId wagerAmount).1.pool.currentAmount =
        s.pool.currentAmount +
          appliedContribution s.config s.pool.currentAmount wagerAmount ∧
      (contributeTx s gameId wagerAmount).1.pool.totalContributions =
        s.pool.totalContributions +
          appliedContribution s.config s.pool.currentAmount wagerAmount ∧
      (contributeTx s gameId wagerAmount).1.pool.version = s.pool.version + 1 ∧
      (contributeTx s gameId wagerAmount).1.contributionHistory =
        s.contributionHistory ++
          [⟨s.pool.jackpotType, wagerAmount,
            appliedContribution s.config s.pool.currentAmount wagerAmount,
            gameId⟩] ∧
      (contributeTx s gameId wagerAmount).2 =
        (ContributionMap.zero.set s.pool.jackpotType
          (appliedContribution s.config s.pool.currentAmount wagerAmount),
         appliedContribution s.config s.pool.currentAmount wagerAmount)) := by
  have hc0 : 0 ≤ Int.floor ((wagerAmount : ℚ) * jsOrRat s.config.rate 0) :=
    Int.floor_nonneg.mpr (mul_nonneg (by exact_mod_cast hw.le) hr)
  refine ⟨?_, ?_, ?_, ?_, ?_⟩
  · intro hmax
    unfold appliedContribution
    rw [hmax]
    dsimp only
    split_ifs <;> omega
  · intro m hmax hmpos hle
    unfold appliedContribution
    rw [hmax]
    dsimp only
    split_ifs <;> omega
  · intro m hmax hmpos hgt
    have hA : appliedContribution s.config s.pool.currentAmount wagerAmount =
        max 0 (m - s.pool.currentAmount) := by
      unfold appliedContribution
      rw [hmax]
      dsimp only
      split_ifs <;> omega
    refine ⟨hA, ?_⟩
    intro hcc
    have hApos : 0 < appliedContribution s.config s.pool.currentAmount wagerAmount := by
      rw [hA]; omega
    unfold contributeTx
    dsimp only
    rw [if_pos hApos]
    dsimp only
    rw [hA]
    omega
  · intro h0
    unfold contributeTx
    dsimp only
    rw [if_neg (by omega)]
  · intro hpos
    unfold contributeTx
    dsimp only
    rw [if_pos hpos]
    exact ⟨rfl, rfl, rfl, rfl, rfl⟩

/-- Witness for C4 at the spec's own cap example: rate 1/10, cap 100, pool at
95, wager 100: the computed contribution 10 is clamped to 5 and the pool ends
exactly at the cap. -/
theorem contribute_applies_correctly_witness :
    ((0:ℤ) < 100 ∧ (0:ℚ) ≤ jsOrRat (some (1/10)) 0) ∧
    appliedContribution ⟨some (1/10), none, some 100⟩ 95 100 = 5 ∧
    (contributeTx
      ⟨⟨some (1/10), none, some 100⟩,
       ⟨.MINOR, 95, 10, some 100, 1/10, 0, 0, none, none, none, 0⟩, [], []⟩
      "game-1" 100).1.pool.currentAmount = 100 := by
  have h := contribute_applies_correctly
    ⟨⟨some (1/10), none, some 100⟩,
     ⟨.MINOR, 95, 10, some 100, 1/10, 0, 0, none, none, none, 0⟩, [], []⟩
    "game-1" 100 (by decide) (by norm_num [jsOrRat])
  have h3 := h.2.2.1 100 rfl (by decide)
    (by
      show (100:ℤ) < 95 + Int.floor (((100:ℤ):ℚ) * jsOrRat (some (1/10)) 0)
      norm_num [jsOrRat])
  have h5 : appliedContribution ⟨some (1/10), none, some 100⟩ 95 100 =
      max 0 ((100:ℤ) - 95) := h3.1
  refine ⟨⟨by decide, by norm_num [jsOrRat]⟩, ?_, h3.2 (by decide)⟩
  rw [h5]
  decide

/-- Helper: the config row update never touches `currentAmount` and always
increments `version` by one. -/
theorem applyConfigUpdate_fields (pool : Pool) (c : JackpotTypeConfig) :
    (applyConfigUpdate pool c).currentAmount = pool.currentAmount ∧
    (applyConfigUpdate pool c).version = pool.version + 1 := by
  unfold applyConfigUpdate
  rcases c with ⟨rate, seedA, maxA⟩
  dsimp only
  cases rate <;> cases seedA <;> cases maxA <;> exact ⟨rfl, rfl⟩

/-- Helper: every single committed manager operation preserves a non-negative
pool balance. -/
theorem runOp_nonneg (s : ManagerState) (op : Op)
    (h : 0 ≤ s.pool.currentAmount) : 0 ≤ (runOp s op).pool.currentAmount := by
  cases op with
  | contribute gameId wager =>
    unfold runOp
    dsimp only
    split_ifs with hw
    · have hnn := appliedContribution_nonneg s.config s.pool.currentAmount wager
      unfold contributeTx
      dsimp only
      split_ifs with ha
      · dsimp only; omega
      · exact h
    · exact h
  | win u g w now =>
    unfold runOp
    dsimp only
    split_ifs with hv
    · cases hres : processWinTx s u g w now with
      | ok out =>
        have hok := processWinTx_ok s u g w now out hres
        dsimp only
        omega
      | error e =>
        exact h
    · exact h
  | updateConfig patch =>
    unfold runOp updateConfigRun
    dsimp only
    split_ifs with hv
    · dsimp only
      rw [(applyConfigUpdate_fields s.pool patch).1]
      exact h
    · exact h

/-- Helper: every committed `Contribute` or `Win` preserves well-formedness. -/
theorem runOp_stateOk (s : ManagerState) (op : Op) (h : StateOk s)
    (hop : ∀ patch, op ≠ .updateConfig patch) : StateOk (runOp s op) := by
  obtain ⟨h1, h2, h3⟩ := h
  cases op with
  | contribute gameId wager =>
    unfold runOp
    dsimp only
    split_ifs with hw
    · have hnn := appliedContribution_nonneg s.config s.pool.currentAmount wager
      unfold contributeTx
      dsimp only
      split_ifs with ha
      · refine ⟨by dsimp only; omega, h2, ?_⟩
        intro m hm
        dsimp only at hm ⊢
        obtain ⟨hmpos, hcur, hseed⟩ := h3 m hm
        refine ⟨hmpos, ?_, hseed⟩
        exact appliedContribution_cap s.config s.pool.currentAmount wager m
          (h2.trans hm) hmpos hcur
      · exact ⟨h1, h2, h3⟩
    · exact ⟨h1, h2, h3⟩
  | win u g w now =>
    unfold runOp
    dsimp only
    split_ifs with hv
    · cases hres : processWinTx s u g w now with
      | ok out =>
        obtain ⟨hcur, hpos, hle, hseed, hmax, hcfg⟩ :=
          processWinTx_ok s u g w now out hres
        dsimp only
        refine ⟨by omega, by rw [hcfg, hmax]; exact h2, ?_⟩
        intro m hm
        rw [hmax] at hm
        obtain ⟨hmpos, hcurm, hseedm⟩ := h3 m hm
        exact ⟨hmpos, by omega, by rw [hseed]; exact hseedm⟩
      | error e =>
        exact ⟨h1, h2, h3⟩
    · exact ⟨h1, h2, h3⟩
  | updateConfig patch => exact absurd rfl (hop patch)

/-- Helper: non-negativity of the pool along any committed operation trace. -/
theorem runOps_nonneg (s : ManagerState) (ops : List Op)
    (h : 0 ≤ s.pool.currentAmount) : 0 ≤ (runOps s ops).pool.currentAmount := by
  induction ops generalizing s with
  | nil => exact h
  | cons op rest ih => exact ih (runOp s op) (runOp_nonneg s op h)

/-- Helper: well-formedness along any `UpdateConfig`-free trace. -/
theorem runOps_stateOk (s : ManagerState) (ops : List Op) (h : StateOk s)
    (hops : ∀ patch, Op.updateConfig patch ∉ ops) : StateOk (runOps s ops) := by
  induction ops generalizing s with
  | nil => exact h
  | cons op rest ih =>
    have hop : ∀ patch, op ≠ .updateConfig patch := by
      intro patch heq
      exact hops patch (heq ▸ List.mem_cons_self op rest)
    exact ih (runOp s op) (runOp_stateOk s op h hop)
      (fun patch hmem => hops patch (List.mem_cons_of_mem _ hmem))

/-- Helper: a well-formed state satisfies the claimed pool invariant. -/
theorem stateOk_poolInvariant (s : ManagerState) (h : StateOk s) :
    poolInvariant s.pool = true := by
  obtain ⟨h1, _, h3⟩ := h
  unfold poolInvariant
  rw [Bool.and_eq_true]
  refine ⟨decide_eq_true h1, ?_⟩
  cases hm : s.pool.maxAmount with
  | none => rfl
  | some m => exact decide_eq_true (h3 m hm).2.1

/-- Counterexample to C5 as stated: starting from the bootstrap MINOR pool,
one successful `UpdateConfig` with `seedAmount = 40000`, `maxAmount = 50000`
(valid: both positive, `maxAmount > seedAmount`) leaves a committed pool with
`currentAmount = 100000 > maxAmount = 50000`, violating the invariant. -/
theorem jackpot_pool_invariant_counterexample :
    poolInvariant ((runOps initialMinorState
      [Op.updateConfig ⟨none, some 40000, some 50000⟩]).pool) = false := by
  decide

/-- C5 (amended): every committed pool state reachable from a well-formed
state satisfies `0 ≤ currentAmount`; and along traces containing no
`UpdateConfig`, the full invariant — `currentAmount ≤ maxAmount` whenever
`maxAmount` is set — also holds.  (`UpdateConfig` can lower `maxAmount` below
`currentAmount`, breaking the upper bound; see the counterexample.) -/
theorem jackpot_pool_invariant_amended (s0 : ManagerState) (ops : List Op)
    (h0 : StateOk s0) :
    0 ≤ (runOps s0 ops).pool.currentAmount ∧
    ((∀ patch, Op.updateConfig patch ∉ ops) →
      poolInvariant (runOps s0 ops).pool = true) := by
  refine ⟨runOps_nonneg s0 ops h0.1, ?_⟩
  intro hops
  exact stateOk_poolInvariant _ (runOps_stateOk s0 ops h0 hops)

/-- Witness for C5 (amended): the bootstrap state is well-formed, and a
contribution followed by a win settlement keeps the invariant. -/
theorem jackpot_pool_invariant_amended_witness :
    StateOk initialMinorState ∧
    poolInvariant ((runOps initialMinorState
      [Op.contribute "game-1" 1000,
       Op.win "user-1" "game-1" (some 20) 9]).pool) = true := by
  have hok : StateOk initialMinorState := by
    refine ⟨by decide, rfl, ?_⟩
    intro m hm
    have hm100 : m = 1000000 := by
      have : some (1000000 : ℤ) = some m := hm
      exact (Option.some.injEq _ _ ▸ this).symm
    subst hm100
    exact ⟨by decide, by decide, by decide⟩
  refine ⟨hok, ?_⟩
  exact (jackpot_pool_invariant_amended initialMinorState
    [Op.contribute "game-1" 1000, Op.win "user-1" "game-1" (some 20) 9] hok).2
    (by intro patch hmem; simp at hmem)

/-- Helper: one unfolding step of the retry loop. -/
theorem optimisticGo_step {α : Type} (outcomes : ℕ → Except ThrownError α)
    (m fuel attempt : ℕ) :
    optimisticGo outcomes m (fuel + 1) attempt =
      match outcomes attempt with
      | .ok v => ⟨.ok (v, attempt - 1), 1, []⟩
      | .error (.app e) =>
        if e.isRetryable = true ∧ attempt < m then
          let r := optimisticGo outcomes m fuel (attempt + 1)
          ⟨r.result, r.attemptsUsed + 1, RETRY_DELAY_MS * 2 ^ attempt :: r.delays⟩
        else ⟨.error e, 1, []⟩
      | .error (.store e) =>
        if isConcurrencyError e = true ∧ attempt < m then
          let r := optimisticGo outcomes m fuel (attempt + 1)
          ⟨r.result, r.attemptsUsed + 1, RETRY_DELAY_MS * 2 ^ attempt :: r.delays⟩
        else ⟨.error ⟨.database, "DATABASE_CONNECTION_FAILED"⟩, 1, []⟩ := rfl

/-- Helper: the loop never performs more attempts than its fuel allows. -/
theorem optimisticGo_attempts_le {α : Type} (outcomes : ℕ → Except ThrownError α)
    (m : ℕ) : ∀ fuel attempt,
    (optimisticGo outcomes m fuel attempt).attemptsUsed ≤ fuel := by
  intro fuel
  induction fuel with
  | zero => intro attempt; exact Nat.le_refl 0
  | succ n ih =>
    intro attempt
    rw [optimisticGo_step]
    cases h : outcomes attempt with
    | ok v =>
      dsimp only
      omega
    | error te =>
      cases te with
      | app e =>
        dsimp only
        split_ifs with hc
        · dsimp only
          have := ih (attempt + 1)
          omega
        · dsimp only
          omega
      | store e =>
        dsimp only
        split_ifs with hc
        · dsimp only
          have := ih (attempt + 1)
          omega
        · dsimp only
          omega

/-- C8: retry semantics of the optimistic executor: at most 3 attempts; an
immediate success returns after one attempt with no delays; a non-retryable
application fault or a store fault not classified transient propagates
immediately (the latter wrapped as a database fault) with no retry; three
successive version conflicts surface the concurrency fault itself, and three
successive classified-transient store faults surface a database fault, in both
cases after backoff delays of base×2¹ and base×2²; and any run that retried at
all saw a retryable application fault or a classified-transient store fault on
its first attempt. -/
theorem optimisticUpdate_retry_semantics {α : Type}
    (outcomes : ℕ → Except ThrownError α) :
    (optimisticUpdate outcomes).attemptsUsed ≤ 3 ∧
    (∀ v, outcomes 1 = .ok v →
      optimisticUpdate outcomes = ⟨.ok (v, 0), 1, []⟩) ∧
    (∀ e, outcomes 1 = .error (.app e) → e.isRetryable = false →
      optimisticUpdate outcomes = ⟨.error e, 1, []⟩) ∧
    (∀ se, outcomes 1 = .error (.store se) → isConcurrencyError se = false →
      optimisticUpdate outcomes =
        ⟨.error ⟨.database, "DATABASE_CONNECTION_FAILED"⟩, 1, []⟩) ∧
    (∀ c, (∀ k, 1 ≤ k → k ≤ 3 →
        outcomes k = .error (.app ⟨.concurrency, c⟩)) →
      optimisticUpdate outcomes = ⟨.error ⟨.concurrency, c⟩, 3,
        [RETRY_DELAY_MS * 2 ^ 1, RETRY_DELAY_MS * 2 ^ 2]⟩) ∧
    (∀ se, isConcurrencyError se = true →
      (∀ k, 1 ≤ k → k ≤ 3 → outcomes k = .error (.store se)) →
      optimisticUpdate outcomes =
        ⟨.error ⟨.database, "DATABASE_CONNECTION_FAILED"⟩, 3,
          [RETRY_DELAY_MS * 2 ^ 1, RETRY_DELAY_MS * 2 ^ 2]⟩) ∧
    (2 ≤ (optimisticUpdate outcomes).attemptsUsed →
      (∃ e, outcomes 1 = .error (.app e) ∧ e.isRetryable = true) ∨
      (∃ se, outcomes 1 = .error (.store se) ∧ isConcurrencyError se = true)) := by
  refine ⟨?_, ?_, ?_, ?_, ?_, ?_, ?_⟩
  · exact optimisticGo_attempts_le outcomes MAX_RETRY_ATTEMPTS MAX_RETRY_ATTEMPTS 1
  · intro v h1
    simp [optimisticUpdate, MAX_RETRY_ATTEMPTS, optimisticGo, h1]
  · intro e h1 hnr
    simp [optimisticUpdate, MAX_RETRY_ATTEMPTS, optimisticGo, h1, hnr]
  · intro se h1 hnc
    simp [optimisticUpdate, MAX_RETRY_ATTEMPTS, optimisticGo, h1, hnc]
  · intro c hout
    have e1 := hout 1 (by omega) (by omega)
    have e2 := hout 2 (by omega) (by omega)
    have e3 := hout 3 (by omega) (by omega)
    simp [optimisticUpdate, MAX_RETRY_ATTEMPTS, optimisticGo, e1, e2, e3,
      JackpotError.isRetryable]
  · intro se hc hout
    have e1 := hout 1 (by omega) (by omega)
    have e2 := hout 2 (by omega) (by omega)
    have e3 := hout 3 (by omega) (by omega)
    simp [optimisticUpdate, MAX_RETRY_ATTEMPTS, optimisticGo, e1, e2, e3, hc]
  · intro h2
    cases h1 : outcomes 1 with
    | ok v =>
      exfalso
      have hone : (optimisticUpdate outcomes).attemptsUsed = 1 := by
        simp [optimisticUpdate, MAX_RETRY_ATTEMPTS, optimisticGo, h1]
      omega
    | error te =>
      cases te with
      | app e =>
        by_cases hr : e.isRetryable = true
        · exact Or.inl ⟨e, rfl, hr⟩

        · exfalso
          have hone : (optimisticUpdate outcomes).attemptsUsed = 1 := by
            simp [optimisticUpdate, MAX_RETRY_ATTEMPTS, optimisticGo, h1, hr]
          omega
      | store e =>
        by_cases hr : isConcurrencyError e = true
        · exact Or.inr ⟨e, rfl, hr⟩
        · exfalso
          have hone : (optimisticUpdate outcomes).attemptsUsed = 1 := by
            simp [optimisticUpdate, MAX_RETRY_ATTEMPTS, optimisticGo, h1, hr]
          omega

/-- Witness for C8: three successive version conflicts surface the concurrency
fault after exactly three attempts and delays 200ms, 400ms. -/
theorem optimisticUpdate_retry_semantics_witness :
    (∀ k, 1 ≤ k → k ≤ 3 →
      (fun _ => (.error (.app ⟨.concurrency, "CONCURRENCY_VERSION_CONFLICT"⟩) :
        Except ThrownError Unit)) k =
        .error (.app ⟨.concurrency, "CONCURRENCY_VERSION_CONFLICT"⟩)) ∧
    optimisticUpdate
      (fun _ => (.error (.app ⟨.concurrency, "CONCURRENCY_VERSION_CONFLICT"⟩) :
        Except ThrownError Unit)) =
      ⟨.error ⟨.concurrency, "CONCURRENCY_VERSION_CONFLICT"⟩, 3,
        [RETRY_DELAY_MS * 2 ^ 1, RETRY_DELAY_MS * 2 ^ 2]⟩ := by
  refine ⟨fun k _ _ => rfl, ?_⟩
  exact (optimisticUpdate_retry_semantics
    (fun _ => (.error (.app ⟨.concurrency, "CONCURRENCY_VERSION_CONFLICT"⟩) :
      Except ThrownError Unit))).2.2.2.2.1
    "CONCURRENCY_VERSION_CONFLICT" (fun k _ _ => rfl)

/-- C9: the public contribution wrapper converts every failure of
`jackpotManager.contribute` into a soft result — `success = false`, the
all-zero per-type map and total 0 — instead of throwing, and the
bet-completion listener returns 0 rather than propagating, so the bet settles
regardless; a successful contribution is passed through unchanged. -/
theorem jackpot_contribution_never_fails_bet (e : JackpotError)
    (r : ContributionMap × ℤ) :
    processJackpotContribution (.error e) =
      ⟨false, ContributionMap.zero, 0, some e.code⟩ ∧
    onBetCompleted (.ok (processJackpotContribution (.error e))) = 0 ∧
    onBetCompleted (.error e) = 0 ∧
    processJackpotContribution (.ok r) = ⟨true, r.1, r.2, none⟩ :=
  ⟨rfl, rfl, rfl, rfl⟩

/-- C10: when a validated config patch is merged but the batch persistence
then fails, the surfaced error propagates to the caller while the in-memory
config keeps the merged values — `getConfig` returns the new per-type entry —
and the pool row (its `seedAmount`, `maxAmount`, `contributionRate`,
`version`) is left with the old values: memory and storage diverge. -/
theorem updateConfig_memory_persistence_divergence (s : ManagerState)
    (c : JackpotTypeConfig) (e : JackpotError)
    (hval : validTypeConfig c = true) :
    (updateConfigRun s (some c) (some e)).2 = some e ∧
    getConfig (updateConfigRun s (some c) (some e)).1 = c ∧
    (updateConfigRun s (some c) (some e)).1.pool = s.pool := by
  unfold updateConfigRun getConfig
  dsimp only
  rw [if_pos hval]
  exact ⟨rfl, rfl, rfl⟩

/-- Witness for C10: lowering the rate to 1% with a failing persistence keeps
the new rate in memory, reports the fault, and leaves the row untouched. -/
theorem updateConfig_memory_persistence_divergence_witness :
    validTypeConfig ⟨some (1/100), none, none⟩ = true ∧
    ((updateConfigRun initialMinorState (some ⟨some (1/100), none, none⟩)
        (some ⟨.database, "DATABASE_CONNECTION_FAILED"⟩)).2 =
      some ⟨.database, "DATABASE_CONNECTION_FAILED"⟩ ∧
     getConfig (updateConfigRun initialMinorState
        (some ⟨some (1/100), none, none⟩)
        (some ⟨.database, "DATABASE_CONNECTION_FAILED"⟩)).1 =
      ⟨some (1/100), none, none⟩ ∧
     (updateConfigRun initialMinorState (some ⟨some (1/100), none, none⟩)
        (some ⟨.database, "DATABASE_CONNECTION_FAILED"⟩)).1.pool =
      initialMinorState.pool) := by
  have hval : validTypeConfig ⟨some (1/100), none, none⟩ = true := by
    unfold validTypeConfig
    norm_num
  exact ⟨hval, updateConfig_memory_persistence_divergence initialMinorState
    ⟨some (1/100), none, none⟩ ⟨.database, "DATABASE_CONNECTION_FAILED"⟩ hval⟩

/-- Counterexample to C7 as stated: a BET payload with `winAmount = 10 > 0`
whose second insert fails commits the BET row with no correlated WIN row
(each insert is a separate auto-committed statement and the failure is
swallowed), and replaying then yields two BET rows rather than completing the
first one. -/
theorem logTransaction_partial_write_counterexample :
    (logTransaction []
      ⟨"u1", "BET", some "b1", none, some 100, some 10, none, 1000, 910, 0, 0⟩
      [true, false] =
      [betRow ⟨"u1", "BET", some "b1", none, some 100, some 10, none,
        1000, 910, 0, 0⟩] ∧
     ∀ r ∈ logTransaction []
        ⟨"u1", "BET", some "b1", none, some 100, some 10, none, 1000, 910, 0, 0⟩
        [true, false], ¬ r.txType = "WIN") ∧
    ((logTransaction
        (logTransaction []
          ⟨"u1", "BET", some "b1", none, some 100, some 10, none,
            1000, 910, 0, 0⟩ [true, false])
        ⟨"u1", "BET", some "b1", none, some 100, some 10, none,
          1000, 910, 0, 0⟩ [true, true]).filter
      (fun r => r.txType = "BET")).length = 2 := by
  decide

/-- C7 (amended): for a BET payload, a fully successful call writes exactly
one BET debit row and — only when the win guard holds — exactly one paired WIN
credit row sharing the bet's `relatedId` and the same final before/after
balances, and the call never raises (every run commits the original ledger
plus a prefix of `[betRow, winRow]`); however a failure between the two
inserts leaves the BET row committed without its WIN row. -/
theorem logTransaction_bet_rows (ledger : List TxRow) (p : LogPayload)
    (hb : p.txType = "BET") :
    (winGuard p = true →
      logTransaction ledger p [true, true] = ledger ++ [betRow p, winRow p]) ∧
    (winGuard p = false →
      logTransaction ledger p [true, true] = ledger ++ [betRow p]) ∧
    ((winRow p).relatedId = (betRow p).relatedId ∧
     (winRow p).realBalanceBefore = (betRow p).realBalanceBefore ∧
     (winRow p).realBalanceAfter = (betRow p).realBalanceAfter ∧
     (winRow p).bonusBalanceBefore = (betRow p).bonusBalanceBefore ∧
     (winRow p).bonusBalanceAfter = (betRow p).bonusBalanceAfter ∧
     (winRow p).wagerAmount = jsOrNum p.winAmount 0) ∧
    (∀ insertOk, logTransaction ledger p insertOk = ledger ∨
      logTransaction ledger p insertOk = ledger ++ [betRow p] ∨
      logTransaction ledger p insertOk = ledger ++ [betRow p, winRow p]) := by
  have hnd : ¬ p.txType = "DEPOSIT" := by rw [hb]; decide
  refine ⟨?_, ?_, ⟨rfl, rfl, rfl, rfl, rfl, rfl⟩, ?_⟩
  · intro hg
    unfold logTransaction
    rw [if_neg hnd, if_pos hb]
    simp [hg]
  · intro hg
    unfold logTransaction
    rw [if_neg hnd, if_pos hb]
    simp [hg]
  · intro insertOk
    unfold logTransaction
    rw [if_neg hnd, if_pos hb]
    dsimp only
    by_cases hh : insertOk.headD false = true
    · rw [if_pos hh]
      by_cases hg : winGuard p = true
      · rw [if_pos hg]
        by_cases h2 : (insertOk.drop 1).headD false = true
        · rw [if_pos h2]
          right; right
          simp
        · rw [if_neg h2]
          right; left
          rfl
      · rw [if_neg hg]
        right; left
        rfl
    · rw [if_neg hh]
      left
      rfl

/-- Witness for C7 (amended): a concrete successful BET-with-win call writes
the debit row and the paired credit row. -/
theorem logTransaction_bet_rows_witness :
    (⟨"u1", "BET", some "b1", none, some 100, some 10, none,
      1000, 910, 0, 0⟩ : LogPayload).txType = "BET" ∧
    logTransaction []
      ⟨"u1", "BET", some "b1", none, some 100, some 10, none, 1000, 910, 0, 0⟩
      [true, true] =
      [betRow ⟨"u1", "BET", some "b1", none, some 100, some 10, none,
        1000, 910, 0, 0⟩,
       winRow ⟨"u1", "BET", some "b1", none, some 100, some 10, none,
        1000, 910, 0, 0⟩] := by
  refine ⟨rfl, ?_⟩
  exact (logTransaction_bet_rows []
    ⟨"u1", "BET", some "b1", none, some 100, some 10, none, 1000, 910, 0, 0⟩
    rfl).1 (by decide)

end Cashflow
